import Mathlib

/-!
Verification development for the ghz gRPC benchmarking tool.

The Go sources are shallowly embedded below:
* namespace `ghz`    — the driver / worker-pool / call-orchestration code
  (package `ghz`, file `requester.go`-style source under src/unnamed/part_000);
* namespace `config` — the configuration package (src/unnamed/part_001).

External effects (time, channels, the gRPC transport) are modelled by
explicit data: a worker run is represented by the trace of events it performs,
streams are represented by the outcomes of their send / receive operations,
and the dial step of `Run` is parametrised by its outcome.
-/

namespace ghz

/-- Transport-level error as observed by stream operations.  `eof` models
`io.EOF` (the end-of-stream sentinel); `status n` models a gRPC status error
with numeric code `n`. -/
inductive GErr where
  | eof : GErr
  | status : Nat → GErr
deriving DecidableEq

/-- Embedding of the `Options` struct (request options).  Go `int` fields that
a validated run can only ever see as non-negative are modelled as `Nat`; the
`Data`/`Metadata` payload fields are not needed by any claim and are omitted. -/
structure Options where
  Host : String := ""
  Cert : String := ""
  CName : String := ""
  N : Nat := 0
  C : Nat := 0
  QPS : Nat := 0
  Z : Nat := 0
  Timeout : Nat := 0
  DialTimtout : Nat := 0
  KeepaliveTime : Nat := 0
  Insecure : Bool := false
deriving DecidableEq

/-- Max size of the buffer of result channel (source constant `maxResult`). -/
def maxResult : Nat := 1000000

/-- Embedding of the source helper `func min(a, b int) int`. -/
def min (a b : Nat) : Nat :=
  if a < b then a else b

/-- Embedding of the `callResult` struct: result of a call. -/
structure callResult where
  err : Option String
  status : String
  duration : Nat
deriving DecidableEq

/-- A Go buffered channel of capacity `cap` holding the queued values. -/
structure Chan (α : Type) where
  cap : Nat
  buf : List α
deriving DecidableEq

/-- Go channel send on a buffered channel: the value is enqueued when the
buffer has room; otherwise the sender blocks (`none`) — the value is never
dropped. -/
def chanSend {α : Type} (c : Chan α) (v : α) : Option (Chan α) :=
  if c.buf.length < c.cap then some { c with buf := c.buf ++ [v] } else none

/-- A pacing ticker allocated by `time.Tick`. -/
structure Ticker where
  id : Nat
  periodMicros : Nat
deriving DecidableEq

/-- `time.Tick` allocates a fresh ticker with the given period; ticker
identities are modelled by a fresh-id counter threaded through the run. -/
def timeTick (nextId : Nat) (periodMicros : Nat) : Ticker × Nat :=
  ({ id := nextId, periodMicros := periodMicros }, nextId + 1)

/-- One observable step of a worker loop iteration:
checking the stop channel, waiting on a ticker, or invoking the orchestrator
(`makeRequest`). -/
inductive WEvent where
  | checkStop : WEvent
  | waitTick : Nat → WEvent
  | call : WEvent
deriving DecidableEq

/-- The loop body of `runWorker` (source lines 199-211), iteration index `i`,
`k` iterations remaining.  Each iteration is the Go `select`: first the
non-blocking check of `stopCh` (a sentinel present means `return`), otherwise
the `default` branch: wait on the throttle ticker when `QPS > 0`, then call
`makeRequest`.  `stop i` says whether a sentinel is available at iteration
`i`; `tid` is the id of this worker's throttle ticker. -/
def runWorkerIter (qps : Nat) (tid : Nat) (stop : Nat → Bool) : Nat → Nat → List WEvent
  | _, 0 => []
  | i, k + 1 =>
    WEvent.checkStop ::
      (if stop i then []
       else (if qps > 0 then [WEvent.waitTick tid] else []) ++
         WEvent.call :: runWorkerIter qps tid stop (i + 1) k)

/-- The observable behaviour of one worker: the tickers it allocated and the
events it performed. -/
structure WorkerTrace where
  tickers : List Ticker
  events : List WEvent
deriving DecidableEq

/-- Embedding of `runWorker` (source lines 193-212): when `QPS > 0` the worker
itself calls `time.Tick(time.Duration(1e6/QPS) * time.Microsecond)` to
allocate its throttle ticker, then runs `n` loop iterations.  Returns the
trace together with the updated fresh-id counter. -/
def runWorker (qps : Nat) (nextId : Nat) (stop : Nat → Bool) (n : Nat) :
    WorkerTrace × Nat :=
  if qps > 0 then
    let t := timeTick nextId (1000000 / qps)
    ({ tickers := [t.1], events := runWorkerIter qps t.1.id stop 0 n }, t.2)
  else
    ({ tickers := [], events := runWorkerIter qps 0 stop 0 n }, nextId)

/-- Helper for `runWorkers`: spawn `k` workers starting at worker index `w`,
threading the ticker fresh-id counter `nextId`.  Each worker runs
`cfg.N / cfg.C` iterations (source line 187). -/
def spawnWorkers (cfg : Options) (stop : Nat → Nat → Bool) :
    Nat → Nat → Nat → List WorkerTrace
  | _, _, 0 => []
  | w, nextId, k + 1 =>
    let r := runWorker cfg.QPS nextId (stop w) (cfg.N / cfg.C)
    r.1 :: spawnWorkers cfg stop (w + 1) r.2 k

/-- Embedding of `runWorkers` (source lines 178-191): launch `C` workers, each
running `runWorker(N / C)` ("Ignore the case where b.N % b.C != 0."), and wait
for all of them.  `stop w i` is the stop-channel observation of worker `w` at
its iteration `i`. -/
def runWorkers (cfg : Options) (stop : Nat → Nat → Bool) : List WorkerTrace :=
  spawnWorkers cfg stop 0 0 cfg.C

/-- The ticker ids a worker actually waited on. -/
def waitTickIds (tr : WorkerTrace) : List Nat :=
  tr.events.filterMap fun e =>
    match e with
    | WEvent.waitTick i => some i
    | _ => none

/-- Number of orchestrator invocations (`makeRequest` calls) in an event list. -/
def callCount : List WEvent → Nat
  | [] => 0
  | WEvent.call :: es => callCount es + 1
  | _ :: es => callCount es

/-- Total orchestrator invocations across a pool of workers. -/
def totalCalls (trs : List WorkerTrace) : Nat :=
  (trs.map fun tr => callCount tr.events).sum

/-- Per-call environment of `makeRequest`: which of the three fallible steps
before the RPC fail (`ctd.executeData`, `ctd.executeMetadata`,
`createPayloads`). -/
structure CallEnv where
  dataErr : Bool
  mdErr : Bool
  payloadErr : Bool
deriving DecidableEq

/-- The observable outcome of one `makeRequest` invocation. -/
structure CallTrace where
  rpcIssued : Bool
  resultsEmitted : Nat
deriving DecidableEq

/-- Embedding of `makeRequest` (source lines 214-263): the call ordinal is
taken, the data template, metadata template and payloads are produced in that
order, and any failure returns early — before any RPC is issued and without
emitting anything on the result channel.  On the dispatch path one CallResult
is emitted for the call; that emission is performed by the stats handler
attached to the transport, whose code is not under src/, so its per-call
emission count of 1 is modelled from the spec (the Stats Handler "emits
exactly one CallResult to the result channel" per call). -/
def makeRequest (env : CallEnv) : CallTrace :=
  if env.dataErr then { rpcIssued := false, resultsEmitted := 0 }
  else if env.mdErr then { rpcIssued := false, resultsEmitted := 0 }
  else if env.payloadErr then { rpcIssued := false, resultsEmitted := 0 }
  else { rpcIssued := true, resultsEmitted := 1 }

/-- CallResults emitted over a run of `n` orchestrator invocations whose
per-call environments are given by `envs`. -/
def runEmitted (envs : Nat → CallEnv) (n : Nat) : Nat :=
  ((List.range n).map fun j => (makeRequest (envs j)).resultsEmitted).sum

/-- The observable behaviour of `Run`. -/
structure RunTrace where
  resultCap : Nat
  stopCap : Nat
  connected : Bool
  reporterStarted : Bool
  workersLaunched : Nat
  reportReturned : Bool
  errReturned : Option GErr
deriving DecidableEq

/-- Embedding of `Run` (source lines 102-128), parametrised by the outcome of
`b.connect()`: the result channel is allocated with capacity
`min(C*1000, maxResult)` and the stop channel with capacity `C`; if the dial
fails `Run` returns `(nil, err)` at once — the reporter is never created or
started and no worker runs; otherwise the reporter is started, the `C`
workers run, and a report is returned with a nil error. -/
def Run (cfg : Options) (connectErr : Option GErr) : RunTrace :=
  let rcap := min (cfg.C * 1000) maxResult
  match connectErr with
  | some e =>
    { resultCap := rcap, stopCap := cfg.C, connected := false,
      reporterStarted := false, workersLaunched := 0,
      reportReturned := false, errReturned := some e }
  | none =>
    { resultCap := rcap, stopCap := cfg.C, connected := true,
      reporterStarted := true, workersLaunched := cfg.C,
      reportReturned := true, errReturned := none }

/-- The send loop of `makeBidiRequest` (source lines 309-325) with `counter`
messages already sent and `k = inputLen - counter` messages remaining.
`sendRes i` is the outcome of `str.SendMsg` on message `i`.  Returns
(number of SendMsg calls, whether CloseSend was called, final `err`).
When no message remains (which covers both the `inputLen == 0` and the
`counter == inputLen` breaks) the stream is half-closed via `CloseSend`;
a send error exits the loop with `err` set and without half-closing. -/
def bidiSendLoop (sendRes : Nat → Option GErr) (counter : Nat) :
    Nat → Nat × Bool × Option GErr
  | 0 => (0, true, none)
  | k + 1 =>
    match sendRes counter with
    | some e => (1, false, some e)
    | none =>
      let r := bidiSendLoop sendRes (counter + 1) k
      (r.1 + 1, r.2.1, r.2.2)

/-- The receive loop shared (textually) by `makeBidiRequest` (lines 327-335)
and `makeServerStreamingRequest` (lines 295-303): `RecvMsg` until it returns
an error, normalising `io.EOF` to nil.  The stream delivers `msgs` messages
and then the terminal error `term`.  Returns (number of RecvMsg calls, the
receive error after EOF normalisation). -/
def recvLoopGo : Nat → GErr → Nat × Option GErr
  | 0, term => (1, if term = GErr.eof then none else some term)
  | k + 1, term =>
    let r := recvLoopGo k term
    (r.1 + 1, r.2)

/-- The observable behaviour of one bidi call. -/
structure BidiTrace where
  sendMsgCalls : Nat
  closeSendCalled : Bool
  recvMsgCalls : Nat
  errAfterSend : Option GErr
  finalRecvErr : Option GErr
deriving DecidableEq

/-- Embedding of `makeBidiRequest` (source lines 306-336): open the stream
(`invokeErr` is the outcome of `InvokeRpcBidiStream`), run the send loop over
the `inputLen` payload messages while `err == nil`, then run the receive loop
— which is guarded by the same `err == nil`, so it runs only when the stream
was opened and every send succeeded. -/
def makeBidiRequest (invokeErr : Option GErr) (inputLen : Nat)
    (sendRes : Nat → Option GErr) (msgs : Nat) (term : GErr) : BidiTrace :=
  let s :=
    match invokeErr with
    | some e => (0, false, some e)
    | none => bidiSendLoop sendRes 0 inputLen
  match s.2.2 with
  | some e =>
    { sendMsgCalls := s.1, closeSendCalled := s.2.1, recvMsgCalls := 0,
      errAfterSend := some e, finalRecvErr := some e }
  | none =>
    let r := recvLoopGo msgs term
    { sendMsgCalls := s.1, closeSendCalled := s.2.1, recvMsgCalls := r.1,
      errAfterSend := none, finalRecvErr := r.2 }

/-- The observable behaviour of one server-streaming call. -/
structure ServerStreamTrace where
  requestSent : Bool
  recvMsgCalls : Nat
  finalRecvErr : Option GErr
deriving DecidableEq

/-- Embedding of `makeServerStreamingRequest` (source lines 293-304):
`InvokeRpcServerStream(ctx, mtd, input)` sends the single request; while
`err == nil`, `RecvMsg` repeatedly; a receive error breaks the loop after
normalising `io.EOF` to nil. -/
def makeServerStreamingRequest (invokeErr : Option GErr) (msgs : Nat)
    (term : GErr) : ServerStreamTrace :=
  match invokeErr with
  | some e => { requestSent := false, recvMsgCalls := 0, finalRecvErr := some e }
  | none =>
    let r := recvLoopGo msgs term
    { requestSent := true, recvMsgCalls := r.1, finalRecvErr := r.2 }

/-- Status-code name of a transport error. -/
def statusName : GErr → String
  | GErr.eof => "EOF"
  | GErr.status n => "Code(" ++ toString n ++ ")"

/-- Modelled from the spec: the stats handler and reporter — which record one
CallResult per call with the transport status name — are not under src/ (only
their construction sites appear).  Per the spec, a call whose final error is
nil (in particular a stream drained to end-of-stream) is recorded with status
"OK". -/
def recordedStatus : Option GErr → String
  | none => "OK"
  | some e => statusName e

/-- A sample run configuration: two workers, two total calls, 1 qps. -/
def cfgTwoWorkers : Options := { N := 2, C := 2, QPS := 1 }

/-- A sample run configuration with `N` not a multiple of `C`. -/
def cfgFiveTwo : Options := { N := 5, C := 2 }

end ghz

namespace config

/-- Embedding of the `Config` struct of the configuration package.  Go `int`
fields are modelled as `Int` (they may legitimately be negative before
validation); the payload pointers `Data` and `Metadata` only matter through
their nil-ness and are modelled as `Option Unit`. -/
structure Config where
  Proto : String := ""
  Call : String := ""
  Cert : String := ""
  N : Int := 0
  C : Int := 0
  QPS : Int := 0
  Z : Int := 0
  Timeout : Int := 0
  Data : Option Unit := none
  DataPath : String := ""
  Metadata : Option Unit := none
  MetadataPath : String := ""
  Format : String := ""
  Output : String := ""
  Host : String := ""
  CPUs : Int := 0
  ImportPaths : List String := []
deriving DecidableEq

/-- Embedding of `Config.Default`: a zero `N` becomes 200, a zero `C` becomes
50, a zero `CPUs` becomes `runtime.GOMAXPROCS(-1)` (passed in as
`gomaxprocs`). -/
def Config.Default (gomaxprocs : Int) (c : Config) : Config :=
  let c1 := if c.N = 0 then { c with N := 200 } else c
  let c2 := if c1.C = 0 then { c1 with C := 50 } else c1
  if c2.CPUs = 0 then { c2 with CPUs := gomaxprocs } else c2

/-- Whitespace test used by Go `strings.TrimSpace` (the ASCII space classes;
claims do not depend on exotic Unicode whitespace). -/
def isSpaceChar (c : Char) : Bool :=
  c = ' ' || c = '\t' || c = '\n' || c = '\r' || c = '\x0b' || c = '\x0c'

/-- Embedding of Go `strings.TrimSpace`: drop leading and trailing whitespace. -/
def trimSpace (s : String) : String :=
  String.mk (((s.data.dropWhile isSpaceChar).reverse.dropWhile isSpaceChar).reverse)

/-- Embedding of `requiredString`: error when the trimmed string is empty. -/
def requiredString (s : String) : Except String Unit :=
  if trimSpace s = "" then Except.error "is required" else Except.ok ()

/-- Embedding of `minValue`: error when `v` is below the minimum `m`. -/
def minValue (v : Int) (m : Int) : Except String Unit :=
  if v < m then Except.error ("must be at least " ++ toString m) else Except.ok ()

/-- Embedding of Go `filepath.Ext`: the suffix beginning at the final dot in
the final slash-separated element of the path; empty when that element has no
dot. -/
def filepathExt (p : String) : String :=
  let seg := p.data.reverse.takeWhile fun c => c ≠ '/'
  if seg.contains '.' then
    String.mk ('.' :: (seg.takeWhile fun c => c ≠ '.').reverse)
  else ""

/-- Embedding of `Config.Validate`: the checks in source order, each failure
wrapped with the field name. -/
def Config.Validate (c : Config) : Except String Unit :=
  match requiredString c.Proto with
  | Except.error e => Except.error ("proto: " ++ e)
  | Except.ok _ =>
    if filepathExt c.Proto ≠ ".proto" then
      Except.error "proto: must have .proto extension"
    else
      match requiredString c.Call with
      | Except.error e => Except.error ("call: " ++ e)
      | Except.ok _ =>
        match minValue c.N 0 with
        | Except.error e => Except.error ("n: " ++ e)
        | Except.ok _ =>
          match minValue c.C 0 with
          | Except.error e => Except.error ("c: " ++ e)
          | Except.ok _ =>
            match minValue c.QPS 0 with
            | Except.error e => Except.error ("q: " ++ e)
            | Except.ok _ =>
              match minValue c.Timeout 0 with
              | Except.error e => Except.error ("t: " ++ e)
              | Except.ok _ =>
                match minValue c.CPUs 0 with
                | Except.error e => Except.error ("cpus: " ++ e)
                | Except.ok _ =>
                  if trimSpace c.DataPath = "" then
                    if c.Data = none then Except.error "data: is required"
                    else Except.ok ()
                  else Except.ok ()

/-- The Go call `c.Z, _ = time.ParseDuration(aux.Z)` in `UnmarshalJSON`:
`parseDuration` is the standard-library duration parser at interface level
(`some d` on success, `none` on a malformed duration string, in which case the
returned duration value is the zero duration); the error result is discarded. -/
def unmarshalZ (parseDuration : String → Option Int) (zField : String) : Int :=
  match parseDuration zField with
  | some d => d
  | none => 0

/-- Embedding of `Config.UnmarshalJSON`: the auxiliary decode of the JSON body
(external `json.Unmarshal` into the alias struct plus the raw `z` string) is
passed in as `decoded`; on success every field comes from the alias except
`Z`, which is set from `unmarshalZ` — a malformed `z` is never an error. -/
def Config.UnmarshalJSON (parseDuration : String → Option Int)
    (decoded : Option (Config × String)) : Except String Config :=
  match decoded with
  | none => Except.error "json"
  | some (aliasCfg, zField) =>
    Except.ok { aliasCfg with Z := unmarshalZ parseDuration zField }

/-- Embedding of `parseConfig`: unmarshal, apply defaults, validate, in that
order; unmarshal and validation failures are wrapped and returned. -/
def parseConfig (parseDuration : String → Option Int) (gomaxprocs : Int)
    (decoded : Option (Config × String)) : Except String Config :=
  match Config.UnmarshalJSON parseDuration decoded with
  | Except.error e => Except.error ("parsing json: " ++ e)
  | Except.ok c0 =>
    let c := Config.Default gomaxprocs c0
    match c.Validate with
    | Except.error e => Except.error ("validating: " ++ e)
    | Except.ok _ => Except.ok c

/-- A sample decoded configuration that passes validation after defaulting. -/
def sampleConfig : Config := { Proto := "svc.proto", Call := "pkg.Svc.M", Data := some () }

/-- The result of parsing `sampleConfig` with `gomaxprocs = 4`. -/
def sampleParsed : Config := { sampleConfig with N := 200, C := 50, CPUs := 4 }

end config

/-! ## General lemmas about the worker pool -/

theorem spawnWorkers_length (cfg : ghz.Options) (stop : Nat → Nat → Bool) :
    ∀ k w nid, (ghz.spawnWorkers cfg stop w nid k).length = k := by
  intro k
  induction k with
  | zero => intro w nid; rfl
  | succ k ih => intro w nid; simp [ghz.spawnWorkers, ih]

theorem runWorker_pos (qps nid : Nat) (st : Nat → Bool) (n : Nat) (hq : 0 < qps) :
    ghz.runWorker qps nid st n =
      ({ tickers := [⟨nid, 1000000 / qps⟩],
         events := ghz.runWorkerIter qps nid st 0 n }, nid + 1) := by
  simp [ghz.runWorker, ghz.timeTick, hq]

theorem spawnWorkers_getElem (cfg : ghz.Options) (stop : Nat → Nat → Bool)
    (hq : 0 < cfg.QPS) :
    ∀ k w nid j, j < k →
      (ghz.spawnWorkers cfg stop w nid k)[j]? =
        some (ghz.runWorker cfg.QPS (nid + j) (stop (w + j)) (cfg.N / cfg.C)).1 := by
  intro k
  induction k with
  | zero => intro w nid j hj; exact absurd hj (Nat.not_lt_zero j)
  | succ k ih =>
    intro w nid j hj
    cases j with
    | zero => simp [ghz.spawnWorkers]
    | succ j =>
      have hnext : (ghz.runWorker cfg.QPS nid (stop w) (cfg.N / cfg.C)).2 = nid + 1 := by
        rw [runWorker_pos _ _ _ _ hq]
      have e1 : nid + 1 + j = nid + (j + 1) := by omega
      have e2 : w + 1 + j = w + (j + 1) := by omega
      calc (ghz.spawnWorkers cfg stop w nid (k + 1))[j + 1]?
          = (ghz.spawnWorkers cfg stop (w + 1)
              (ghz.runWorker cfg.QPS nid (stop w) (cfg.N / cfg.C)).2 k)[j]? := by
            simp [ghz.spawnWorkers]
        _ = some (ghz.runWorker cfg.QPS (nid + (j + 1)) (stop (w + (j + 1)))
              (cfg.N / cfg.C)).1 := by
            rw [hnext, ih (w + 1) (nid + 1) j (by omega), e1, e2]

theorem runWorkerIter_waitTick (qps tid : Nat) (stop : Nat → Bool) :
    ∀ k i u, ghz.WEvent.waitTick u ∈ ghz.runWorkerIter qps tid stop i k → u = tid := by
  intro k
  induction k with
  | zero => intro i u h; simp [ghz.runWorkerIter] at h
  | succ k ih =>
    intro i u h
    by_cases hs : stop i
    · simp [ghz.runWorkerIter, hs] at h
    · by_cases hq : qps > 0
      · simp [ghz.runWorkerIter, hs, hq] at h
        rcases h with h | h
        · exact h
        · exact ih (i + 1) u h
      · simp [ghz.runWorkerIter, hs, hq] at h
        exact ih (i + 1) u h

theorem waitTickIds_mem (tr : ghz.WorkerTrace) (u : Nat) :
    u ∈ ghz.waitTickIds tr → ghz.WEvent.waitTick u ∈ tr.events := by
  intro h
  simp only [ghz.waitTickIds, List.mem_filterMap] at h
  obtain ⟨e, he, hfe⟩ := h
  cases e with
  | checkStop => simp at hfe
  | call => simp at hfe
  | waitTick v =>
    simp at hfe
    subst hfe
    exact he

theorem callCount_iter (qps tid : Nat) :
    ∀ k i, ghz.callCount (ghz.runWorkerIter qps tid (fun _ => false) i k) = k := by
  intro k
  induction k with
  | zero => intro i; rfl
  | succ k ih =>
    intro i
    by_cases hq : qps > 0 <;>
      simp [ghz.runWorkerIter, ghz.callCount, hq, ih (i + 1)]

theorem callCount_runWorker (qps nid n : Nat) :
    ghz.callCount (ghz.runWorker qps nid (fun _ => false) n).1.events = n := by
  by_cases hq : qps > 0 <;> simp [ghz.runWorker, ghz.timeTick, hq, callCount_iter]

theorem spawnWorkers_callCounts (cfg : ghz.Options) :
    ∀ k w nid, ∀ tr ∈ ghz.spawnWorkers cfg (fun _ _ => false) w nid k,
      ghz.callCount tr.events = cfg.N / cfg.C := by
  intro k
  induction k with
  | zero => intro w nid tr h; simp [ghz.spawnWorkers] at h
  | succ k ih =>
    intro w nid tr h
    simp only [ghz.spawnWorkers, List.mem_cons] at h
    rcases h with h | h
    · subst h; exact callCount_runWorker _ _ _
    · exact ih _ _ tr h

theorem spawnWorkers_totalCalls (cfg : ghz.Options) :
    ∀ k w nid, ghz.totalCalls (ghz.spawnWorkers cfg (fun _ _ => false) w nid k) =
      k * (cfg.N / cfg.C) := by
  intro k
  induction k with
  | zero => intro w nid; simp [ghz.spawnWorkers, ghz.totalCalls]
  | succ k ih =>
    intro w nid
    simp only [ghz.spawnWorkers, ghz.totalCalls, List.map_cons, List.sum_cons]
    rw [show (ghz.runWorker cfg.QPS nid ((fun _ _ => false) w) (cfg.N / cfg.C)).1 =
        (ghz.runWorker cfg.QPS nid (fun _ => false) (cfg.N / cfg.C)).1 from rfl]
    rw [callCount_runWorker]
    have := ih (w + 1) (ghz.runWorker cfg.QPS nid (fun _ => false) (cfg.N / cfg.C)).2
    simp only [ghz.totalCalls] at this
    rw [this]
    ring

/-! ## Claim C1 -/

/-- C1 counterexample: in a run with `qps = 1 > 0` and `C = 2` workers, the
workers do NOT all wait on one shared pacing ticker — worker 0 waits on
ticker 0 while worker 1 waits on ticker 1, because `runWorker` calls
`time.Tick` itself, once per worker. -/
theorem C1_shared_ticker_refuted :
    ¬ ∃ t : Nat, ∀ tr ∈ ghz.runWorkers ghz.cfgTwoWorkers (fun _ _ => false),
        ∀ u ∈ ghz.waitTickIds tr, u = t := by
  rintro ⟨t, h⟩
  have h0 : (0 : Nat) = t :=
    h ⟨[⟨0, 1000000⟩], [ghz.WEvent.checkStop, ghz.WEvent.waitTick 0, ghz.WEvent.call]⟩
      (by decide) 0 (by decide)
  have h1 : (1 : Nat) = t :=
    h ⟨[⟨1, 1000000⟩], [ghz.WEvent.checkStop, ghz.WEvent.waitTick 1, ghz.WEvent.call]⟩
      (by decide) 1 (by decide)
  omega

/-- C1 (amended): for every run with qps > 0, each of the C workers allocates
its own pacing ticker (worker j gets ticker j, of period 1e6/qps microseconds)
and waits only on that ticker, so qps bounds each worker's individual
call-start rate, not the global rate of the pool. -/
theorem C1_per_worker_ticker (cfg : ghz.Options) (stop : Nat → Nat → Bool)
    (hq : 0 < cfg.QPS) :
    (ghz.runWorkers cfg stop).length = cfg.C ∧
    ∀ j, j < cfg.C →
      ∃ tr, (ghz.runWorkers cfg stop)[j]? = some tr ∧
        tr.tickers = [⟨j, 1000000 / cfg.QPS⟩] ∧
        ∀ u ∈ ghz.waitTickIds tr, u = j := by
  constructor
  · exact spawnWorkers_length cfg stop cfg.C 0 0
  · intro j hj
    refine ⟨(ghz.runWorker cfg.QPS j (stop j) (cfg.N / cfg.C)).1, ?_, ?_, ?_⟩
    · have := spawnWorkers_getElem cfg stop hq cfg.C 0 0 j hj
      simpa [ghz.runWorkers] using this
    · rw [runWorker_pos _ _ _ _ hq]
    · intro u hu
      have hmem := waitTickIds_mem _ u hu
      rw [runWorker_pos _ _ _ _ hq] at hmem
      exact runWorkerIter_waitTick cfg.QPS j (stop j) (cfg.N / cfg.C) 0 u hmem

/-- C1 witness: the amended statement applied to the concrete two-worker,
qps = 1 configuration. -/
theorem C1_per_worker_ticker_witness :
    (ghz.runWorkers ghz.cfgTwoWorkers (fun _ _ => false)).length = ghz.cfgTwoWorkers.C := by
  exact (C1_per_worker_ticker ghz.cfgTwoWorkers (fun _ _ => false) (by decide)).1

/-! ## Claim C3 -/

/-- C3 counterexample: with qps = 1, one iteration and no stop sentinel, the
worker's event order is stop-check first, then the ticker wait, then the call
— not the claimed ticker-wait-then-stop-check order. -/
theorem C3_order_refuted :
    (ghz.runWorker 1 0 (fun _ => false) 1).1.events =
      [ghz.WEvent.checkStop, ghz.WEvent.waitTick 0, ghz.WEvent.call] ∧
    [ghz.WEvent.checkStop, ghz.WEvent.waitTick 0, ghz.WEvent.call] ≠
      [ghz.WEvent.waitTick 0, ghz.WEvent.checkStop, ghz.WEvent.call] := by
  decide

/-- C3 (amended): each worker iteration first checks the stop channel and
exits immediately when a sentinel is present; otherwise, if qps > 0 it waits
on the pacing ticker, and then invokes the call orchestrator. -/
theorem C3_iteration_order (qps tid : Nat) (st : Nat → Bool) (i k : Nat) :
    (st i = true → ghz.runWorkerIter qps tid st i (k + 1) = [ghz.WEvent.checkStop]) ∧
    (st i = false → 0 < qps →
      ghz.runWorkerIter qps tid st i (k + 1) =
        ghz.WEvent.checkStop :: ghz.WEvent.waitTick tid :: ghz.WEvent.call ::
          ghz.runWorkerIter qps tid st (i + 1) k) ∧
    (st i = false → qps = 0 →
      ghz.runWorkerIter qps tid st i (k + 1) =
        ghz.WEvent.checkStop :: ghz.WEvent.call ::
          ghz.runWorkerIter qps tid st (i + 1) k) := by
  refine ⟨fun hs => ?_, fun hs hq => ?_, fun hs hq => ?_⟩
  · simp [ghz.runWorkerIter, hs]
  · simp [ghz.runWorkerIter, hs, hq]
  · simp [ghz.runWorkerIter, hs, hq]

/-- C3 witness: the amended iteration order at a concrete instance. -/
theorem C3_iteration_order_witness :
    ghz.runWorkerIter 1 0 (fun _ => false) 0 1 =
      ghz.WEvent.checkStop :: ghz.WEvent.waitTick 0 :: ghz.WEvent.call ::
        ghz.runWorkerIter 1 0 (fun _ => false) 1 0 := by
  exact (C3_iteration_order 1 0 (fun _ => false) 0 0).2.1 rfl (by decide)

/-! ## Claim C4 -/

/-- C4: in a run that is never stopped, the pool has exactly C workers, each
performs exactly N / C orchestrator invocations (integer division), the total
number of calls attempted is C * (N / C), and the remainder N mod C is
exactly the part of N that is not executed. -/
theorem C4_division_of_work (cfg : ghz.Options) :
    (ghz.runWorkers cfg (fun _ _ => false)).length = cfg.C ∧
    (∀ tr ∈ ghz.runWorkers cfg (fun _ _ => false),
      ghz.callCount tr.events = cfg.N / cfg.C) ∧
    ghz.totalCalls (ghz.runWorkers cfg (fun _ _ => false)) = cfg.C * (cfg.N / cfg.C) ∧
    cfg.C * (cfg.N / cfg.C) + cfg.N % cfg.C = cfg.N := by
  refine ⟨spawnWorkers_length cfg _ cfg.C 0 0, ?_, ?_, Nat.div_add_mod cfg.N cfg.C⟩
  · exact spawnWorkers_callCounts cfg cfg.C 0 0
  · rw [ghz.runWorkers, spawnWorkers_totalCalls cfg cfg.C 0 0]

/-- C4 witness: with N = 5 and C = 2, each worker performs 2 calls and the
pool performs 4 = 2 * (5 / 2) calls in total; the remainder 1 is skipped. -/
theorem C4_division_of_work_witness :
    ghz.callCount (ghz.WorkerTrace.mk []
      [ghz.WEvent.checkStop, ghz.WEvent.call, ghz.WEvent.checkStop, ghz.WEvent.call]).events =
      ghz.cfgFiveTwo.N / ghz.cfgFiveTwo.C ∧
    ghz.totalCalls (ghz.runWorkers ghz.cfgFiveTwo (fun _ _ => false)) =
      ghz.cfgFiveTwo.C * (ghz.cfgFiveTwo.N / ghz.cfgFiveTwo.C) := by
  refine ⟨(C4_division_of_work ghz.cfgFiveTwo).2.1 _ (by decide),
    (C4_division_of_work ghz.cfgFiveTwo).2.2.1⟩

/-! ## Lemmas about the streaming loops -/

theorem recvLoopGo_count (term : ghz.GErr) :
    ∀ msgs, (ghz.recvLoopGo msgs term).1 = msgs + 1 := by
  intro msgs
  induction msgs with
  | zero => rfl
  | succ k ih => simp [ghz.recvLoopGo, ih]

theorem recvLoopGo_eof : ∀ msgs, ghz.recvLoopGo msgs ghz.GErr.eof = (msgs + 1, none) := by
  intro msgs
  induction msgs with
  | zero => rfl
  | succ k ih => simp [ghz.recvLoopGo, ih]

theorem bidiSendLoop_ok_close (sendRes : Nat → Option ghz.GErr) :
    ∀ k c, (ghz.bidiSendLoop sendRes c k).2.2 = none →
      (ghz.bidiSendLoop sendRes c k).2.1 = true := by
  intro k
  induction k with
  | zero => intro c _; rfl
  | succ k ih =>
    intro c h
    cases hsr : sendRes c with
    | some e => simp [ghz.bidiSendLoop, hsr] at h
    | none =>
      have hh := ih (c + 1) (by simpa [ghz.bidiSendLoop, hsr] using h)
      simpa [ghz.bidiSendLoop, hsr] using hh

/-! ## Claim C2 -/

/-- C2 counterexample: in a bidirectional call with a single payload message,
SendMsg returns io.EOF (which is not the stream's terminal status — the
status would only be learned by receiving), and yet the receive loop performs
zero RecvMsg calls: the final status is never obtained. -/
theorem C2_recv_after_send_error_refuted :
    (ghz.makeBidiRequest none 1 (fun _ => some ghz.GErr.eof) 0 ghz.GErr.eof).errAfterSend =
      some ghz.GErr.eof ∧
    (ghz.makeBidiRequest none 1 (fun _ => some ghz.GErr.eof) 0 ghz.GErr.eof).recvMsgCalls = 0 := by
  decide

/-- C2 (amended): in a bidirectional call, after a send operation returns any
error the receive loop does not run at all (zero RecvMsg calls); the receive
loop runs — draining all messages plus the terminal status — exactly when
every send succeeded, in which case the stream was half-closed via
CloseSend. -/
theorem C2_recv_only_after_clean_sends (inputLen msgs : Nat)
    (sendRes : Nat → Option ghz.GErr) (term : ghz.GErr) :
    ((∃ e, (ghz.makeBidiRequest none inputLen sendRes msgs term).errAfterSend = some e) →
      (ghz.makeBidiRequest none inputLen sendRes msgs term).recvMsgCalls = 0) ∧
    ((ghz.makeBidiRequest none inputLen sendRes msgs term).errAfterSend = none →
      (ghz.makeBidiRequest none inputLen sendRes msgs term).closeSendCalled = true ∧
      (ghz.makeBidiRequest none inputLen sendRes msgs term).recvMsgCalls = msgs + 1) := by
  cases hs : (ghz.bidiSendLoop sendRes 0 inputLen).2.2 with
  | none =>
    constructor
    · rintro ⟨e, he⟩
      simp [ghz.makeBidiRequest, hs] at he
    · intro _
      have hc := bidiSendLoop_ok_close sendRes inputLen 0 hs
      simp [ghz.makeBidiRequest, hs, hc, recvLoopGo_count]
  | some e =>
    constructor
    · intro _
      simp [ghz.makeBidiRequest, hs]
    · intro hnone
      simp [ghz.makeBidiRequest, hs] at hnone

/-- C2 witness: the amended statement at a concrete input where both sends
succeed: CloseSend is called and the receive loop drains 2 messages plus the
terminal status. -/
theorem C2_recv_only_after_clean_sends_witness :
    (ghz.makeBidiRequest none 2 (fun _ => none) 2 ghz.GErr.eof).closeSendCalled = true ∧
    (ghz.makeBidiRequest none 2 (fun _ => none) 2 ghz.GErr.eof).recvMsgCalls = 3 := by
  exact (C2_recv_only_after_clean_sends 2 2 (fun _ => none) ghz.GErr.eof).2 (by decide)

/-! ## Claim C5 -/

/-- C5: if rendering the payload template, rendering the metadata template, or
building the payload messages fails, `makeRequest` returns without issuing the
RPC and without emitting any CallResult; a 1-call run with such a failure
therefore has a final count below N = 1; and the worker loop proceeds to its
next iteration after every orchestrator invocation regardless of its
outcome. -/
theorem C5_prerpc_failure_drops_call (env : ghz.CallEnv)
    (hfail : env.dataErr = true ∨ env.mdErr = true ∨ env.payloadErr = true) :
    (ghz.makeRequest env).rpcIssued = false ∧
    (ghz.makeRequest env).resultsEmitted = 0 ∧
    ghz.runEmitted (fun _ => env) 1 < 1 ∧
    (∀ qps tid : Nat, ∀ stop : Nat → Bool, ∀ i k : Nat, stop i = false →
      ghz.callCount (ghz.runWorkerIter qps tid stop i (k + 1)) =
        ghz.callCount (ghz.runWorkerIter qps tid stop (i + 1) k) + 1) := by
  have hmk : ghz.makeRequest env = { rpcIssued := false, resultsEmitted := 0 } := by
    rcases hfail with h | h | h <;>
      · simp only [ghz.makeRequest, h]
        split_ifs <;> rfl
  refine ⟨by rw [hmk], by rw [hmk], ?_, ?_⟩
  · simp [ghz.runEmitted, hmk]
  · intro qps tid stop i k hs
    by_cases hq : qps > 0 <;> simp [ghz.runWorkerIter, ghz.callCount, hs, hq]

/-- C5 witness: the statement at the concrete environment where the payload
template fails, instantiated in a worker iteration with qps = 0. -/
theorem C5_prerpc_failure_drops_call_witness :
    (ghz.makeRequest ⟨true, false, false⟩).rpcIssued = false ∧
    (ghz.makeRequest ⟨true, false, false⟩).resultsEmitted = 0 ∧
    ghz.runEmitted (fun _ => ⟨true, false, false⟩) 1 < 1 ∧
    ghz.callCount (ghz.runWorkerIter 0 0 (fun _ => false) 0 1) =
      ghz.callCount (ghz.runWorkerIter 0 0 (fun _ => false) 1 0) + 1 := by
  obtain ⟨h1, h2, h3, h4⟩ := C5_prerpc_failure_drops_call ⟨true, false, false⟩ (Or.inl rfl)
  exact ⟨h1, h2, h3, h4 0 0 (fun _ => false) 0 0 rfl⟩

/-! ## Claim C6 -/

/-- C6: if opening the transport connection fails, `Run` returns that error
with a nil report, the reporter (Aggregator) is never started, and no worker
is launched. -/
theorem C6_dial_failure_no_report (cfg : ghz.Options) (e : ghz.GErr) :
    (ghz.Run cfg (some e)).errReturned = some e ∧
    (ghz.Run cfg (some e)).reportReturned = false ∧
    (ghz.Run cfg (some e)).reporterStarted = false ∧
    (ghz.Run cfg (some e)).workersLaunched = 0 := by
  simp [ghz.Run]

/-! ## Claim C7 -/

/-- C7: a server-streaming call sends its single request and receives
repeatedly until end-of-stream; io.EOF is normalised to a nil error (a normal
terminator), and the recorded status of such a call is "OK". -/
theorem C7_server_stream_eof_is_ok (msgs : Nat) :
    (ghz.makeServerStreamingRequest none msgs ghz.GErr.eof).requestSent = true ∧
    (ghz.makeServerStreamingRequest none msgs ghz.GErr.eof).recvMsgCalls = msgs + 1 ∧
    (ghz.makeServerStreamingRequest none msgs ghz.GErr.eof).finalRecvErr = none ∧
    ghz.recordedStatus (ghz.makeServerStreamingRequest none msgs ghz.GErr.eof).finalRecvErr =
      "OK" := by
  simp [ghz.makeServerStreamingRequest, recvLoopGo_eof, ghz.recordedStatus]

/-! ## Claim C8 -/

/-- C8: the result channel allocated by `Run` has capacity exactly
min(C * 1000, 1_000_000); a send on a full channel blocks (no enqueue, no
drop), and a successful send appends the value without losing any. -/
theorem C8_result_channel_capacity (cfg : ghz.Options) (ce : Option ghz.GErr) :
    (ghz.Run cfg ce).resultCap = Min.min (cfg.C * 1000) 1000000 ∧
    (∀ (q : ghz.Chan ghz.callResult) (v : ghz.callResult),
      q.cap ≤ q.buf.length → ghz.chanSend q v = none) ∧
    (∀ (q : ghz.Chan ghz.callResult) (v : ghz.callResult) (q2 : ghz.Chan ghz.callResult),
      ghz.chanSend q v = some q2 → q2.buf = q.buf ++ [v] ∧ q2.cap = q.cap) := by
  refine ⟨?_, ?_, ?_⟩
  · have hmin : ghz.min (cfg.C * 1000) ghz.maxResult = Min.min (cfg.C * 1000) 1000000 := by
      simp only [ghz.min, ghz.maxResult, Nat.min_def]
      split_ifs <;> omega
    cases ce <;> simp [ghz.Run, hmin]
  · intro q v hfull
    simp [ghz.chanSend, Nat.not_lt_of_le hfull]
  · intro q v q2 hsend
    simp only [ghz.chanSend] at hsend
    by_cases h : q.buf.length < q.cap
    · rw [if_pos h] at hsend
      cases hsend
      exact ⟨rfl, rfl⟩
    · rw [if_neg h] at hsend
      cases hsend

/-- C8 witness: the capacity formula at C = 50, and a blocked send on a
concrete full channel. -/
theorem C8_result_channel_capacity_witness :
    (ghz.Run { C := 50 } none).resultCap = Min.min 50000 1000000 ∧
    ghz.chanSend (ghz.Chan.mk 1 [(⟨none, "OK", 3⟩ : ghz.callResult)])
      (⟨none, "OK", 4⟩ : ghz.callResult) = none := by
  refine ⟨(C8_result_channel_capacity { C := 50 } none).1, ?_⟩
  exact (C8_result_channel_capacity { C := 50 } none).2.1 _ _ (by decide)

/-! ## Lemmas about the configuration package -/

theorem Default_fields (g : Int) (c : config.Config) :
    config.Config.Default g c =
      { c with N := if c.N = 0 then 200 else c.N,
               C := if c.C = 0 then 50 else c.C,
               CPUs := if c.CPUs = 0 then g else c.CPUs } := by
  unfold config.Config.Default
  by_cases h1 : c.N = 0 <;> by_cases h2 : c.C = 0 <;> by_cases h3 : c.CPUs = 0 <;>
    simp [h1, h2, h3]

theorem minValue_ok (v m : Int) (u : Unit) (h : config.minValue v m = Except.ok u) :
    m ≤ v := by
  simp only [config.minValue] at h
  by_cases hv : v < m
  · rw [if_pos hv] at h
    cases h
  · omega

theorem Validate_ok (c : config.Config) (u : Unit)
    (h : c.Validate = Except.ok u) :
    0 ≤ c.N ∧ 0 ≤ c.C ∧ 0 ≤ c.QPS ∧ 0 ≤ c.Timeout ∧ 0 ≤ c.CPUs := by
  unfold config.Config.Validate at h
  cases hp : config.requiredString c.Proto with
  | error e => rw [hp] at h; cases h
  | ok u1 =>
    rw [hp] at h
    by_cases hex : config.filepathExt c.Proto ≠ ".proto"
    · rw [if_pos hex] at h; cases h
    · rw [if_neg hex] at h
      cases hc : config.requiredString c.Call with
      | error e => rw [hc] at h; cases h
      | ok u2 =>
        rw [hc] at h
        cases hn : config.minValue c.N 0 with
        | error e => rw [hn] at h; cases h
        | ok u3 =>
          rw [hn] at h
          cases hcc : config.minValue c.C 0 with
          | error e => rw [hcc] at h; cases h
          | ok u4 =>
            rw [hcc] at h
            cases hq : config.minValue c.QPS 0 with
            | error e => rw [hq] at h; cases h
            | ok u5 =>
              rw [hq] at h
              cases ht : config.minValue c.Timeout 0 with
              | error e => rw [ht] at h; cases h
              | ok u6 =>
                rw [ht] at h
                cases hcp : config.minValue c.CPUs 0 with
                | error e => rw [hcp] at h; cases h
                | ok u7 =>
                  exact ⟨minValue_ok _ _ _ hn, minValue_ok _ _ _ hcc,
                    minValue_ok _ _ _ hq, minValue_ok _ _ _ ht, minValue_ok _ _ _ hcp⟩

theorem Validate_error_of_bad_field (c : config.Config)
    (hbad : c.N < 0 ∨ c.C < 0 ∨ c.QPS < 0 ∨ c.Timeout < 0 ∨ c.CPUs < 0) :
    ∃ e, c.Validate = Except.error e := by
  cases hv : c.Validate with
  | error e => exact ⟨e, rfl⟩
  | ok u =>
    have := Validate_ok c u hv
    omega

/-! ## Claim C9 -/

/-- Unfolding of `parseConfig` on a successfully decoded body. -/
theorem parseConfig_eq (pd : String → Option Int) (g : Int) (c0 : config.Config)
    (zStr : String) :
    config.parseConfig pd g (some (c0, zStr)) =
      (match (config.Config.Default g
          { c0 with Z := config.unmarshalZ pd zStr }).Validate with
       | Except.error e => Except.error ("validating: " ++ e)
       | Except.ok _ =>
         Except.ok (config.Config.Default g
           { c0 with Z := config.unmarshalZ pd zStr })) := rfl

/-- C9: every configuration returned successfully by `parseConfig` has C ≥ 1
and N ≥ 0; a zero (absent) c is defaulted to 50 and a zero (absent) n to 200
before validation; a negative c, n, q, t or cpus makes `parseConfig` return
an error. -/
theorem C9_parseConfig_invariants (pd : String → Option Int) (g : Int)
    (c0 : config.Config) (zStr : String) :
    (∀ c, config.parseConfig pd g (some (c0, zStr)) = Except.ok c →
      1 ≤ c.C ∧ 0 ≤ c.N ∧ (c0.C = 0 → c.C = 50) ∧ (c0.N = 0 → c.N = 200)) ∧
    (c0.C < 0 ∨ c0.N < 0 ∨ c0.QPS < 0 ∨ c0.Timeout < 0 ∨ c0.CPUs < 0 →
      ∃ e, config.parseConfig pd g (some (c0, zStr)) = Except.error e) := by
  have hdef := Default_fields g { c0 with Z := config.unmarshalZ pd zStr }
  have hC : (config.Config.Default g { c0 with Z := config.unmarshalZ pd zStr }).C =
      if c0.C = 0 then 50 else c0.C := by rw [hdef]
  have hN : (config.Config.Default g { c0 with Z := config.unmarshalZ pd zStr }).N =
      if c0.N = 0 then 200 else c0.N := by rw [hdef]
  have hQ : (config.Config.Default g { c0 with Z := config.unmarshalZ pd zStr }).QPS =
      c0.QPS := by rw [hdef]
  have hT : (config.Config.Default g
      { c0 with Z := config.unmarshalZ pd zStr }).Timeout = c0.Timeout := by rw [hdef]
  have hP : (config.Config.Default g { c0 with Z := config.unmarshalZ pd zStr }).CPUs =
      if c0.CPUs = 0 then g else c0.CPUs := by rw [hdef]
  constructor
  · intro c hok
    rw [parseConfig_eq] at hok
    cases hv : (config.Config.Default g
        { c0 with Z := config.unmarshalZ pd zStr }).Validate with
    | error e => rw [hv] at hok; cases hok
    | ok u =>
      rw [hv] at hok
      cases hok
      have hge := Validate_ok _ u hv
      refine ⟨?_, hge.1, ?_, ?_⟩
      · by_cases h0 : c0.C = 0
        · rw [hC, if_pos h0]; omega
        · have hcge := hge.2.1
          rw [hC, if_neg h0] at hcge ⊢
          omega
      · intro h0; rw [hC, if_pos h0]
      · intro h0; rw [hN, if_pos h0]
  · intro hbad
    have hbad2 : (config.Config.Default g
          { c0 with Z := config.unmarshalZ pd zStr }).N < 0 ∨
        (config.Config.Default g { c0 with Z := config.unmarshalZ pd zStr }).C < 0 ∨
        (config.Config.Default g { c0 with Z := config.unmarshalZ pd zStr }).QPS < 0 ∨
        (config.Config.Default g
          { c0 with Z := config.unmarshalZ pd zStr }).Timeout < 0 ∨
        (config.Config.Default g
          { c0 with Z := config.unmarshalZ pd zStr }).CPUs < 0 := by
      rcases hbad with h | h | h | h | h
      · right; left
        rw [hC, if_neg (by omega)]
        exact h
      · left
        rw [hN, if_neg (by omega)]
        exact h
      · right; right; left; rw [hQ]; exact h
      · right; right; right; left; rw [hT]; exact h
      · right; right; right; right
        rw [hP, if_neg (by omega)]
        exact h
    obtain ⟨e, he⟩ := Validate_error_of_bad_field _ hbad2
    refine ⟨"validating: " ++ e, ?_⟩
    rw [parseConfig_eq, he]

/-- C9 witness: parsing the sample configuration (c = 0, n = 0) succeeds with
C = 50 and N = 200, and flipping c to -1 makes parsing fail. -/
theorem C9_parseConfig_invariants_witness :
    (1 ≤ config.sampleParsed.C ∧ 0 ≤ config.sampleParsed.N ∧
      (config.sampleConfig.C = 0 → config.sampleParsed.C = 50) ∧
      (config.sampleConfig.N = 0 → config.sampleParsed.N = 200)) ∧
    ∃ e, config.parseConfig (fun _ => none) 4
      (some ({ config.sampleConfig with C := -1 }, "")) = Except.error e := by
  constructor
  · exact (C9_parseConfig_invariants (fun _ => none) 4 config.sampleConfig "").1
      config.sampleParsed (by rfl)
  · exact (C9_parseConfig_invariants (fun _ => none) 4
      { config.sampleConfig with C := -1 } "").2 (Or.inl (by decide))

/-! ## Claim C10 -/

/-- C10: when the z field is a string that the duration parser rejects,
`UnmarshalJSON` still succeeds — the parse error is discarded and Z is
silently set to the zero duration. -/
theorem C10_invalid_z_ignored (pd : String → Option Int) (zStr : String)
    (a : config.Config) (hz : pd zStr = none) :
    config.Config.UnmarshalJSON pd (some (a, zStr)) = Except.ok { a with Z := 0 } := by
  simp [config.Config.UnmarshalJSON, config.unmarshalZ, hz]

/-- C10 witness: the statement at a concrete malformed duration string. -/
theorem C10_invalid_z_ignored_witness :
    config.Config.UnmarshalJSON (fun _ => none) (some (config.sampleConfig, "10x")) =
      Except.ok { config.sampleConfig with Z := 0 } := by
  exact C10_invalid_z_ignored (fun _ => none) "10x" config.sampleConfig rfl
